import Mathlib

/-!
Shallow embedding of the task lifecycle engine in `app/core/task_manager.py`:
the `Task` record, the `TaskManager` store with its sweep
(`cleanup_expired_tasks`), creation (`create_task`), execution (`run_task`),
cancellation (`cancel_task`), listing (`list_tasks`) and metrics
(`get_metrics`), plus a small-step interleaving model of the executor's
interaction with the `asyncio.Semaphore` admission gate.

Timestamps are modelled as integers (seconds); `datetime.now()` values are
passed in explicitly as `now` parameters.  Python dicts are modelled as
association lists in insertion order (deletion keeps the order of the rest,
as for a Python dict).  Payloads are string-keyed string maps, which covers
every payload access the code performs (`payload.get("type", "inference")`
and `payload.get("input", "")`).
-/

namespace TaskAgent

/-- The status strings used by `task_manager.py`. -/
inductive Status where
  | pending
  | running
  | completed
  | failed
  | cancelled
deriving DecidableEq, Repr

/-- `task.status in ["completed", "failed", "cancelled"]`. -/
def Status.isTerminal : Status → Bool
  | .completed => true
  | .failed => true
  | .cancelled => true
  | _ => false

/-- The string stored in the Python `status` attribute. -/
def Status.str : Status → String
  | .pending => "pending"
  | .running => "running"
  | .completed => "completed"
  | .failed => "failed"
  | .cancelled => "cancelled"

/-- A task payload: an opaque string-keyed mapping. -/
abbrev Payload := List (String × String)

/-- `payload.get(k, d)`. -/
def Payload.getD (p : Payload) (k d : String) : String :=
  match p.find? (fun kv => kv.1 == k) with
  | some kv => kv.2
  | none => d

/-- The `Task` object of `task_manager.py` (fields of `Task.__init__`). -/
structure Task where
  task_id : String
  id : String
  payload : Payload
  type : String
  status : Status
  result : Option (List (String × String))
  created_at : Int
  updated_at : Int
  started_at : Option Int
  completed_at : Option Int
  error : Option String
  progress : Nat
deriving DecidableEq, Repr

/-- `Task.__init__(task_id, payload)` at time `now`. -/
def Task.init (task_id : String) (payload : Payload) (now : Int) : Task :=
  { task_id := task_id
    id := task_id
    payload := payload
    type := payload.getD "type" "inference"
    status := .pending
    result := none
    created_at := now
    updated_at := now
    started_at := none
    completed_at := none
    error := none
    progress := 0 }

/-- The `inference` section of the configuration (`config.py`,
`InferenceConfig`); pydantic validates `max_concurrent_tasks > 0`,
`timeout_seconds > 0`, `task_retention_hours >= 0`, `max_tasks_count > 0`. -/
structure InferenceConfig where
  max_concurrent_tasks : Nat
  timeout_seconds : Int
  task_retention_hours : Int
  max_tasks_count : Nat
deriving DecidableEq, Repr

/-- The mutable state of a `TaskManager`: the `tasks` dict (insertion
ordered), the two outcome counters and the start time. -/
structure TaskManager where
  tasks : List (String × Task)
  completed_count : Nat
  failed_count : Nat
  start_time : Int
deriving DecidableEq, Repr

/-- Whether an entry is terminal and past the retention limit: the loop body
`task.status in [...] and task.completed_at and task.completed_at <
retention_limit` of `cleanup_expired_tasks`. -/
def isExpiredEntry (cutoff : Int) (p : String × Task) : Bool :=
  p.2.status.isTerminal &&
    (match p.2.completed_at with
     | some c => decide (c < cutoff)
     | none => false)

/-- The terminal entries of the store, in store order: the comprehension
`[(task_id, task) ... if task.status in ["completed", "failed", "cancelled"]]`. -/
def terminalEntries (l : List (String × Task)) : List (String × Task) :=
  l.filter (fun p => p.2.status.isTerminal)

/-- Sort key of the capacity trim: `key=lambda x: x[1].created_at`. -/
def byCreatedAt (x y : String × Task) : Prop :=
  x.2.created_at ≤ y.2.created_at

instance : DecidableRel byCreatedAt :=
  fun x y => Int.decLe x.2.created_at y.2.created_at

instance : IsTotal (String × Task) byCreatedAt :=
  ⟨fun x y => Int.le_total x.2.created_at y.2.created_at⟩

instance : IsTrans (String × Task) byCreatedAt :=
  ⟨fun _ _ _ h h' => Int.le_trans h h'⟩

/-- The capacity-trim half of `cleanup_expired_tasks`: if the store still
exceeds `max_tasks`, sort the terminal entries ascending by `created_at`
(Python's `sorted` is stable, as is insertion sort) and delete the first
`len(tasks) - max_tasks` of them by id. -/
def capacityTrim (max_tasks : Nat) (l : List (String × Task)) :
    List (String × Task) :=
  if l.length > max_tasks then
    let sorted_tasks := List.insertionSort byCreatedAt (terminalEntries l)
    let to_remove := l.length - max_tasks
    if to_remove > 0 then
      let victims := (sorted_tasks.take to_remove).map Prod.fst
      l.filter (fun p => !(victims.contains p.1))
    else l
  else l

/-- `TaskManager.cleanup_expired_tasks` at time `now`: no-op when
`retention_hours <= 0`; otherwise delete terminal entries whose
`completed_at` is before `now - retention_hours`, then capacity-trim, and
return the number of expired entries deleted. -/
def cleanup_expired_tasks (cfg : InferenceConfig) (now : Int)
    (st : TaskManager) : TaskManager × Nat :=
  if cfg.task_retention_hours ≤ 0 then (st, 0)
  else
    let cutoff := now - cfg.task_retention_hours * 3600
    let expired_ids := (st.tasks.filter (isExpiredEntry cutoff)).map Prod.fst
    let remaining := st.tasks.filter (fun p => !(expired_ids.contains p.1))
    let trimmed := capacityTrim cfg.max_tasks_count remaining
    ({ st with tasks := trimmed }, expired_ids.length)

/-- `TaskManager.create_task(payload)`: eagerly sweep, then insert a fresh
`pending` task under a newly assigned id and return it. -/
def create_task (cfg : InferenceConfig) (now : Int) (new_id : String)
    (payload : Payload) (st : TaskManager) : TaskManager × Task :=
  let st1 := (cleanup_expired_tasks cfg now st).1
  let task := Task.init new_id payload now
  ({ st1 with tasks := st1.tasks ++ [(new_id, task)] }, task)

/-- `TaskManager.get_task(task_id)`: `self.tasks.get(task_id)`. -/
def get_task (st : TaskManager) (task_id : String) : Option Task :=
  (st.tasks.find? (fun p => p.1 == task_id)).map Prod.snd

/-- Replace the record stored under `task_id` (the Python code mutates the
`Task` object in place; the dict entry is that same object). -/
def setTask (st : TaskManager) (task_id : String) (t : Task) : TaskManager :=
  { st with tasks := st.tasks.map (fun p => if p.1 == task_id then (p.1, t) else p) }

/-- The first statements of `TaskManager.run_task`, executed before
`async with self.semaphore`: `task.status = "running"; task.started_at =
datetime.now(); task.updated_at = datetime.now()`. -/
def runStart (now : Int) (t : Task) : Task :=
  { t with status := .running, started_at := some now, updated_at := now }

/-- The duration of the work placeholder inside `run_task`:
`await asyncio.sleep(2)` (seconds). -/
def sleepSeconds : Int := 2

/-- The `try` branch of `run_task` after the sleep completes: result set
from the payload's `input`, status `completed`, progress `1.0`. -/
def runBodySuccess (t : Task) : Task :=
  { t with
    result := some [("output", "Processed input: " ++ t.payload.getD "input" "")]
    status := .completed
    progress := 1 }

/-- The `except Exception as e` branch of `run_task`: error recorded, status
`failed`, result mirrors the error. -/
def runBodyError (e : String) (t : Task) : Task :=
  { t with error := some e, status := .failed, result := some [("error", e)] }

/-- The body of the `async with` block: success when no exception was
raised (`outcome = none`), the except branch otherwise. -/
def runBody (outcome : Option String) (t : Task) : Task :=
  match outcome with
  | none => runBodySuccess t
  | some e => runBodyError e t

/-- The `finally` block of `run_task`: `task.completed_at = datetime.now();
task.updated_at = datetime.now()`. -/
def runFinally (now : Int) (t : Task) : Task :=
  { t with completed_at := some now, updated_at := now }

/-- Counter bookkeeping of `run_task`: `self._completed_count += 1` on the
success path, `self._failed_count += 1` in the except branch. -/
def bumpCounter (outcome : Option String) (st : TaskManager) : TaskManager :=
  match outcome with
  | none => { st with completed_count := st.completed_count + 1 }
  | some _ => { st with failed_count := st.failed_count + 1 }

/-- `TaskManager.run_task(task)` as a state transformer: mark running at
`startT`, run the work (which raises `outcome` or returns), record the
outcome and stamp `completed_at` at `endT`.  Note that `run_task` never
consults `timeout_seconds`: the work is awaited without a deadline. -/
def run_task (outcome : Option String) (startT endT : Int)
    (st : TaskManager) (t : Task) : TaskManager × Task :=
  let t1 := runStart startT t
  let t2 := runBody outcome t1
  let t3 := runFinally endT t2
  (setTask (bumpCounter outcome st) t.task_id t3, t3)

/-- `TaskManager.get_all_tasks()`: `list(self.tasks.values())`. -/
def get_all_tasks (st : TaskManager) : List Task :=
  st.tasks.map Prod.snd

/-- Python truthiness of an optional string argument (`if status:` /
`if task_type:`): `None` and `""` are falsy. -/
def truthyStr : Option String → Bool
  | none => false
  | some s => s ≠ ""

/-- `TaskManager.list_tasks(status, task_type)`: filter by status
(lower-cased on both sides) when the status argument is truthy, then by
exact task type when that argument is truthy. -/
def list_tasks (st : TaskManager) (status : Option String)
    (task_type : Option String) : List Task :=
  let tasks := get_all_tasks st
  let tasks :=
    if truthyStr status then
      let status_str := (status.getD "").toLower
      tasks.filter (fun t => t.status.str.toLower == status_str)
    else tasks
  if truthyStr task_type then
    tasks.filter (fun t => t.type == task_type.getD "")
  else tasks

/-- `TaskManager.cancel_task(task_id)`: raise `ValueError` when the id is
unknown; otherwise set status `cancelled` and `updated_at` (the code writes
no other field). -/
def cancel_task (now : Int) (st : TaskManager) (task_id : String) :
    Except String TaskManager :=
  match get_task st task_id with
  | none => .error ("Task " ++ task_id ++ " not found")
  | some t =>
      .ok (setTask st task_id { t with status := .cancelled, updated_at := now })

/-- The dictionary returned by `TaskManager.get_metrics()`. -/
structure Metrics where
  task_count : Nat
  running_tasks : Nat
  pending_tasks : Nat
  completed_tasks : Nat
  failed_tasks : Nat
  uptime : Int
deriving DecidableEq, Repr

/-- `TaskManager.get_metrics()` at time `now`. -/
def get_metrics (now : Int) (st : TaskManager) : Metrics :=
  { task_count := st.tasks.length
    running_tasks := ((get_all_tasks st).filter (fun t => t.status == .running)).length
    pending_tasks := ((get_all_tasks st).filter (fun t => t.status == .pending)).length
    completed_tasks := st.completed_count
    failed_tasks := st.failed_count
    uptime := now - st.start_time }

/-!
A small-step interleaving model of the executor.  Each submitted task runs
`run_task` as an independent unit of concurrent execution; its progress
through `run_task` is one of four phases, cut at the two suspension points
(`await self.semaphore.acquire()` implied by `async with`, and the awaited
work).  The `asyncio.Semaphore` is a counter initialised to
`max_concurrent_tasks`; `acquire` only proceeds when it is positive.
-/

/-- How far one `run_task` invocation has progressed. -/
inductive Phase where
  /-- Spawned (`background_tasks.add_task`) but not yet scheduled. -/
  | notStarted
  /-- Past the `status = "running"` writes, at `async with self.semaphore`. -/
  | waitingSlot
  /-- Inside the `async with` block: holding an admission slot. -/
  | holdingSlot
  /-- The `finally` block ran and the slot was released. -/
  | finished
deriving DecidableEq, Repr

/-- One spawned `run_task` invocation: its task record and its phase. -/
structure ExecTask where
  record : Task
  phase : Phase
deriving DecidableEq, Repr

/-- The shared state of the interleaving model: the semaphore counter and
the spawned invocations. -/
structure ExecState where
  sem : Nat
  procs : List ExecTask
deriving DecidableEq, Repr

/-- Initial executor state: semaphore at full capacity, nothing spawned. -/
def initExec (capacity : Nat) : ExecState :=
  { sem := capacity, procs := [] }

/-- Interleaved atomic steps of the executor model. -/
inductive ExecStep : ExecState → ExecState → Prop where
  /-- `create_task` + `background_tasks.add_task(run_task, task)`: a fresh
  `pending` record is spawned; the semaphore is untouched. -/
  | spawn (sem : Nat) (l : List ExecTask) (id : String) (payload : Payload)
      (now : Int) :
      ExecStep ⟨sem, l⟩ ⟨sem, l ++ [⟨Task.init id payload now, .notStarted⟩]⟩
  /-- The spawned coroutine begins: the pre-semaphore writes of `run_task`
  (status `running`, `started_at`) happen, then it reaches the gate. -/
  | start (sem : Nat) (l₁ l₂ : List ExecTask) (e : ExecTask) (now : Int) :
      e.phase = .notStarted →
      ExecStep ⟨sem, l₁ ++ e :: l₂⟩
        ⟨sem, l₁ ++ ⟨runStart now e.record, .waitingSlot⟩ :: l₂⟩
  /-- `semaphore.acquire` succeeds only when the counter is positive. -/
  | acquire (sem : Nat) (l₁ l₂ : List ExecTask) (e : ExecTask) :
      e.phase = .waitingSlot → 0 < sem →
      ExecStep ⟨sem, l₁ ++ e :: l₂⟩
        ⟨sem - 1, l₁ ++ ⟨e.record, .holdingSlot⟩ :: l₂⟩
  /-- The work finishes (or raises `outcome`), the `finally` block stamps
  `completed_at`, and leaving `async with` releases the slot. -/
  | finish (sem : Nat) (l₁ l₂ : List ExecTask) (e : ExecTask)
      (outcome : Option String) (now : Int) :
      e.phase = .holdingSlot →
      ExecStep ⟨sem, l₁ ++ e :: l₂⟩
        ⟨sem + 1, l₁ ++ ⟨runFinally now (runBody outcome e.record), .finished⟩ :: l₂⟩

/-- States reachable from `initExec capacity` by interleaved steps. -/
inductive ExecReachable (capacity : Nat) : ExecState → Prop where
  | init : ExecReachable capacity (initExec capacity)
  | step {s s' : ExecState} : ExecReachable capacity s → ExecStep s s' →
      ExecReachable capacity s'

/-- The number of invocations currently inside the admission gate. -/
def holdingCount (s : ExecState) : Nat :=
  (s.procs.filter (fun e => e.phase == .holdingSlot)).length

/-!  Invariants of the executor model, proved by induction on reachability. -/

/-- Relation between an invocation's phase and the fields of its record. -/
def phaseRecordOK (e : ExecTask) : Prop :=
  (e.phase = .notStarted →
    e.record.status = .pending ∧ e.record.started_at = none ∧
      e.record.completed_at = none) ∧
  (e.phase = .waitingSlot →
    e.record.status = .running ∧ e.record.started_at ≠ none ∧
      e.record.completed_at = none) ∧
  (e.phase = .holdingSlot →
    e.record.status = .running ∧ e.record.started_at ≠ none ∧
      e.record.completed_at = none) ∧
  (e.phase = .finished →
    (e.record.status = .completed ∨ e.record.status = .failed) ∧
      e.record.started_at ≠ none ∧ e.record.completed_at ≠ none)

/-- The executor invariant: slot accounting plus per-invocation record
consistency. -/
def execInv (capacity : Nat) (s : ExecState) : Prop :=
  holdingCount s + s.sem = capacity ∧ ∀ e ∈ s.procs, phaseRecordOK e

/-!  Concrete tasks, stores and configurations used by the
counterexamples and witnesses below. -/

/-- A configuration whose timeout (one second) is shorter than the
two-second work performed inside `run_task`. -/
def shortTimeoutCfg : InferenceConfig := ⟨5, 1, 24, 1000⟩

/-- The task submitted in the C1 scenario. -/
def helloTask : Task := Task.init "T" [("input", "hello")] 0

/-- A store holding just the C1 task. -/
def stHello : TaskManager := ⟨[("T", helloTask)], 0, 0, 0⟩

/-- The task of the C10 scenario: its payload has no `type` key. -/
def typelessTask : Task := Task.init "H" [("input", "hello")] 3

/-- A store holding just the typeless task. -/
def stTypeless : TaskManager := ⟨[("H", typelessTask)], 0, 0, 0⟩

/-- Oldest terminal record of the C5 trim scenario (created at t=0). -/
def trimTaskA : Task :=
  { Task.init "A" [] 0 with status := .completed, completed_at := some 0 }

/-- Most recently created terminal record of the C5 trim scenario. -/
def trimTaskB : Task :=
  { Task.init "B" [] 1 with status := .failed, completed_at := some 0 }

/-- The pending (non-terminal) record of the C5 trim scenario. -/
def trimTaskC : Task := Task.init "C" [] 2

/-- C5 store: two terminal records and one pending record. -/
def stTrim : TaskManager :=
  ⟨[("A", trimTaskA), ("B", trimTaskB), ("C", trimTaskC)], 0, 0, 0⟩

/-- C5 configuration: `max_tasks_count = 1`. -/
def trimCfg : InferenceConfig := ⟨5, 60, 1, 1⟩

/-- A terminal record whose `completed_at` is past the retention window at
the C6 sweep time. -/
def oldDone : Task :=
  { Task.init "E" [] 0 with status := .completed, completed_at := some 0 }

/-- A terminal record completed just inside the retention window. -/
def newDone : Task :=
  { Task.init "F" [] 1 with status := .completed, completed_at := some 99999 }

/-- C6 store: one expired and one fresh terminal record. -/
def stSweep : TaskManager := ⟨[("E", oldDone), ("F", newDone)], 2, 0, 0⟩

/-- C6 configuration: one-hour retention, large capacity. -/
def sweepCfg : InferenceConfig := ⟨5, 60, 1, 1000⟩

/-- A task that has already completed (terminal, `completed_at` stamped). -/
def completedTask : Task :=
  { Task.init "A" [] 0 with
    status := .completed
    completed_at := some 1
    result := some [("output", "done")]
    progress := 1 }

/-- A store holding just the completed task. -/
def stWithCompleted : TaskManager := ⟨[("A", completedTask)], 1, 0, 0⟩

/-- What `cancel_task 5` turns `completedTask` into. -/
def cancelledA : Task :=
  { completedTask with
    status := .cancelled
    updated_at := 5 }

/-- A freshly created (pending) task. -/
def pendingTask : Task := Task.init "P" [] 0

/-- A store holding just the pending task. -/
def stWithPending : TaskManager := ⟨[("P", pendingTask)], 0, 0, 0⟩

/-- What `cancel_task 7` turns `pendingTask` into. -/
def cancelledP : Task :=
  { pendingTask with
    status := .cancelled
    updated_at := 7 }

/-- A store whose only record has been cancelled (terminal). -/
def stCancelled : TaskManager := ⟨[("P", cancelledP)], 0, 0, 0⟩

lemma holdingCount_middle (sem : Nat) (l₁ l₂ : List ExecTask) (e : ExecTask) :
    holdingCount ⟨sem, l₁ ++ e :: l₂⟩ =
      (l₁.filter (fun x => x.phase == .holdingSlot)).length +
        ((if e.phase = .holdingSlot then 1 else 0) +
          (l₂.filter (fun x => x.phase == .holdingSlot)).length) := by
  simp only [holdingCount, List.filter_append, List.filter_cons,
    List.length_append]
  by_cases h : e.phase = .holdingSlot
  · simp [h]
    omega
  · simp [h]

lemma execInv_step {capacity : Nat} {s s' : ExecState}
    (hinv : execInv capacity s) (hstep : ExecStep s s') :
    execInv capacity s' := by
  obtain ⟨hcount, hrec⟩ := hinv
  cases hstep with
  | spawn sem l id payload now =>
      refine ⟨?_, ?_⟩
      · simpa [holdingCount, List.filter_append, Task.init] using hcount
      · intro e he
        rcases List.mem_append.mp he with h | h
        · exact hrec e h
        · simp only [List.mem_singleton] at h
          subst h
          refine ⟨fun _ => ⟨rfl, rfl, rfl⟩, fun h => ?_, fun h => ?_, fun h => ?_⟩
            <;> simp_all
  | start sem l₁ l₂ e now hph =>
      refine ⟨?_, ?_⟩
      · rw [holdingCount_middle] at hcount ⊢
        simp only [hph] at hcount
        simp at hcount ⊢
        omega
      · intro x hx
        rcases List.mem_append.mp hx with h | h
        · exact hrec x (List.mem_append.mpr (Or.inl h))
        · rcases List.mem_cons.mp h with h | h
          · subst h
            have hold := hrec e (List.mem_append.mpr (Or.inr (List.mem_cons_self _ _)))
            have hcna : e.record.completed_at = none := (hold.1 hph).2.2
            refine ⟨fun h => ?_, fun _ => ⟨rfl, by simp [runStart], by simp [runStart, hcna]⟩,
              fun h => ?_, fun h => ?_⟩ <;> simp_all
          · exact hrec x (List.mem_append.mpr (Or.inr (List.mem_cons_of_mem _ h)))
  | acquire sem l₁ l₂ e hph hpos =>
      have hold := hrec e (List.mem_append.mpr (Or.inr (List.mem_cons_self _ _)))
      refine ⟨?_, ?_⟩
      · rw [holdingCount_middle] at hcount ⊢
        simp only [hph] at hcount
        simp at hcount ⊢
        omega
      · intro x hx
        rcases List.mem_append.mp hx with h | h
        · exact hrec x (List.mem_append.mpr (Or.inl h))
        · rcases List.mem_cons.mp h with h | h
          · subst h
            have hw := hold.2.1 hph
            refine ⟨fun h => ?_, fun h => ?_, fun _ => hw, fun h => ?_⟩ <;> simp_all
          · exact hrec x (List.mem_append.mpr (Or.inr (List.mem_cons_of_mem _ h)))
  | finish sem l₁ l₂ e outcome now hph =>
      have hold := hrec e (List.mem_append.mpr (Or.inr (List.mem_cons_self _ _)))
      refine ⟨?_, ?_⟩
      · rw [holdingCount_middle] at hcount ⊢
        simp only [hph] at hcount
        simp at hcount ⊢
        omega
      · intro x hx
        rcases List.mem_append.mp hx with h | h
        · exact hrec x (List.mem_append.mpr (Or.inl h))
        · rcases List.mem_cons.mp h with h | h
          · subst h
            have hh := hold.2.2.1 hph
            refine ⟨fun h => ?_, fun h => ?_, fun h => ?_, fun _ => ?_⟩
            · simp_all
            · simp_all
            · simp_all
            · refine ⟨?_, ?_, ?_⟩
              · cases outcome <;>
                  simp [runFinally, runBody, runBodySuccess, runBodyError]
              · cases outcome <;>
                  simpa [runFinally, runBody, runBodySuccess, runBodyError]
                    using hh.2.1
              · cases outcome <;>
                  simp [runFinally, runBody, runBodySuccess, runBodyError]
          · exact hrec x (List.mem_append.mpr (Or.inr (List.mem_cons_of_mem _ h)))

lemma execInv_init (capacity : Nat) : execInv capacity (initExec capacity) := by
  constructor
  · simp [holdingCount, initExec]
  · intro e he
    simp [initExec] at he

lemma execInv_reachable {capacity : Nat} {s : ExecState}
    (h : ExecReachable capacity s) : execInv capacity s := by
  induction h with
  | init => exact execInv_init capacity
  | step _ hstep ih => exact execInv_step ih hstep

/-!  Helper lemmas about the store operations. -/

lemma find?_setTask_list (l : List (String × Task)) (task_id : String)
    (t' : Task) :
    (l.map (fun p => if p.1 == task_id then (p.1, t') else p)).find?
        (fun p => p.1 == task_id)
      = (l.find? (fun p => p.1 == task_id)).map (fun p => (p.1, t')) := by
  induction l with
  | nil => rfl
  | cons a l ih =>
    simp only [List.map_cons, List.find?_cons]
    by_cases h : a.1 == task_id
    · rw [if_pos h]
      simp [h]
    · rw [if_neg h]
      simp only [h, ih]

lemma get_task_setTask_same (st : TaskManager) (task_id : String) (t' : Task) :
    get_task (setTask st task_id t') task_id
      = (get_task st task_id).map (fun _ => t') := by
  unfold get_task setTask
  simp only [find?_setTask_list]
  cases st.tasks.find? (fun p => p.1 == task_id) <;> simp

lemma cancel_task_ok {now : Int} {st : TaskManager} {task_id : String}
    {st' : TaskManager} (h : cancel_task now st task_id = .ok st') :
    ∃ t, get_task st task_id = some t ∧
      st' = setTask st task_id { t with status := .cancelled, updated_at := now } := by
  unfold cancel_task at h
  cases hg : get_task st task_id with
  | none => rw [hg] at h; exact Except.noConfusion h
  | some t =>
      rw [hg] at h
      injection h with h
      exact ⟨t, rfl, h.symm⟩

lemma capacityTrim_subset (max_tasks : Nat) (l : List (String × Task)) :
    ∀ p ∈ capacityTrim max_tasks l, p ∈ l := by
  intro p hp
  simp only [capacityTrim] at hp
  split at hp
  · split at hp
    · exact List.mem_of_mem_filter hp
    · exact hp
  · exact hp

lemma cleanup_subset (cfg : InferenceConfig) (now : Int) (st : TaskManager)
    (p : String × Task) (hp : p ∈ (cleanup_expired_tasks cfg now st).1.tasks) :
    p ∈ st.tasks := by
  simp only [cleanup_expired_tasks] at hp
  split at hp
  · exact hp
  · exact List.mem_of_mem_filter (capacityTrim_subset _ _ p hp)

lemma cleanup_counts (cfg : InferenceConfig) (now : Int) (st : TaskManager) :
    (cleanup_expired_tasks cfg now st).1.completed_count = st.completed_count ∧
    (cleanup_expired_tasks cfg now st).1.failed_count = st.failed_count := by
  unfold cleanup_expired_tasks
  split <;> simp

lemma mem_terminalEntries {l : List (String × Task)} {p : String × Task} :
    p ∈ terminalEntries l ↔ p ∈ l ∧ p.2.status.isTerminal = true := by
  simp [terminalEntries, List.mem_filter]

lemma capacityTrim_eq (m : Nat) (l : List (String × Task)) (h : l.length > m) :
    capacityTrim m l =
      l.filter (fun p =>
        !((((List.insertionSort byCreatedAt (terminalEntries l)).take
              (l.length - m)).map Prod.fst).contains p.1)) := by
  simp only [capacityTrim]
  rw [if_pos h, if_pos (by omega)]

/-- Full characterisation of one capacity trim of an over-full store with
unique ids: non-terminal entries survive; the number of surviving terminal
entries is the terminal count less the removal budget `size - max_tasks`;
and every deleted entry is terminal and created no later than any
surviving terminal entry. -/
lemma capacityTrim_spec (m : Nat) (l : List (String × Task))
    (hnd : (l.map Prod.fst).Nodup) (hover : l.length > m) :
    (∀ p ∈ l, p.2.status.isTerminal = false → p ∈ capacityTrim m l) ∧
    (terminalEntries (capacityTrim m l)).length
      = (terminalEntries l).length - (l.length - m) ∧
    (∀ p ∈ l, p ∉ capacityTrim m l →
      p.2.status.isTerminal = true ∧
      ∀ q ∈ capacityTrim m l, q.2.status.isTerminal = true →
        p.2.created_at ≤ q.2.created_at) := by
  have htrim := capacityTrim_eq m l hover
  set S := List.insertionSort byCreatedAt (terminalEntries l) with hS
  set n := l.length - m with hn
  set A := S.take n with hA
  set B := S.drop n with hB
  set victims := A.map Prod.fst with hvict
  have hperm : List.Perm S (terminalEntries l) :=
    List.perm_insertionSort byCreatedAt _
  have hsorted : S.Sorted byCreatedAt := List.sorted_insertionSort byCreatedAt _
  have hndT : ((terminalEntries l).map Prod.fst).Nodup :=
    ((List.filter_sublist l).map Prod.fst).nodup hnd
  have hndS : (S.map Prod.fst).Nodup := ((hperm.map Prod.fst).nodup_iff).mpr hndT
  have hkey : ∀ p ∈ l, p.1 ∈ victims → p ∈ A ∧ p.2.status.isTerminal = true := by
    intro p hp hpv
    rcases List.mem_map.mp hpv with ⟨y, hyA, hyk⟩
    have hyS : y ∈ S := List.take_subset n S hyA
    have hyT : y ∈ terminalEntries l := hperm.mem_iff.mp hyS
    have hyl : y ∈ l := (mem_terminalEntries.mp hyT).1
    have : y = p := List.inj_on_of_nodup_map hnd hyl hp hyk
    subst this
    exact ⟨hyA, (mem_terminalEntries.mp hyT).2⟩
  have hmem_res : ∀ p, p ∈ capacityTrim m l ↔ p ∈ l ∧ ¬(p.1 ∈ victims) := by
    intro p
    rw [htrim, List.mem_filter]
    simp
  refine ⟨?_, ?_, ?_⟩
  · intro p hp hterm
    refine (hmem_res p).mpr ⟨hp, fun hv => ?_⟩
    have := (hkey p hp hv).2
    rw [hterm] at this
    cases this
  · have h1 : terminalEntries (capacityTrim m l)
        = (terminalEntries l).filter (fun p => !(victims.contains p.1)) := by
      rw [htrim]
      unfold terminalEntries
      rw [List.filter_filter, List.filter_filter]
      exact List.filter_congr (fun a _ => by rw [Bool.and_comm])
    have h2 : ((terminalEntries l).filter (fun p => !(victims.contains p.1))).length
        = (S.filter (fun p => !(victims.contains p.1))).length :=
      (hperm.filter _).length_eq.symm
    have hAB : A ++ B = S := List.take_append_drop n S
    have h3 : S.filter (fun p => !(victims.contains p.1))
        = A.filter (fun p => !(victims.contains p.1))
          ++ B.filter (fun p => !(victims.contains p.1)) := by
      rw [← hAB, List.filter_append]
    have h4 : A.filter (fun p => !(victims.contains p.1)) = [] :=
      List.filter_eq_nil_iff.mpr (fun a ha => by
        simp [List.mem_map_of_mem Prod.fst ha])
    have h5 : B.filter (fun p => !(victims.contains p.1)) = B := by
      refine List.filter_eq_self.mpr (fun a ha => ?_)
      have hnv : a.1 ∉ victims := by
        intro hv
        rcases List.mem_map.mp hv with ⟨y, hyA, hyk⟩
        have hyS : y ∈ S := List.take_subset n S hyA
        have haS : a ∈ S := List.drop_subset n S ha
        have : y = a := List.inj_on_of_nodup_map hndS hyS haS hyk
        subst this
        have hSnd : S.Nodup := hndS.of_map Prod.fst
        rw [← hAB] at hSnd
        exact (List.disjoint_of_nodup_append hSnd) hyA ha
      simp [hnv]
    rw [h1, h2, h3, h4, h5, hB]
    simp only [List.nil_append]
    rw [List.length_drop, hperm.length_eq]
  · intro p hp hout
    have hv : p.1 ∈ victims := by
      by_contra hv
      exact hout ((hmem_res p).mpr ⟨hp, hv⟩)
    obtain ⟨hpA, hpterm⟩ := hkey p hp hv
    refine ⟨hpterm, fun q hq hqterm => ?_⟩
    have hql : q ∈ l := ((hmem_res q).mp hq).1
    have hqnv : ¬(q.1 ∈ victims) := ((hmem_res q).mp hq).2
    have hqT : q ∈ terminalEntries l := mem_terminalEntries.mpr ⟨hql, hqterm⟩
    have hqS : q ∈ S := hperm.mem_iff.mpr hqT
    have hAB : A ++ B = S := List.take_append_drop n S
    have hqB : q ∈ B := by
      rcases List.mem_append.mp (hAB ▸ hqS) with h | h
      · exact absurd (List.mem_map_of_mem Prod.fst h) hqnv
      · exact h
    have hpw : List.Pairwise byCreatedAt (A ++ B) := by
      rw [hAB]
      exact hsorted
    exact (List.pairwise_append.mp hpw).2.2 p hpA q hqB

lemma capacityTrim_removed_terminal (m : Nat) (l : List (String × Task))
    (hnd : (l.map Prod.fst).Nodup) (p : String × Task) (hp : p ∈ l)
    (hout : p ∉ capacityTrim m l) : p.2.status.isTerminal = true := by
  by_cases h : l.length > m
  · exact ((capacityTrim_spec m l hnd h).2.2 p hp hout).1
  · exfalso
    apply hout
    unfold capacityTrim
    rw [if_neg h]
    exact hp

lemma isTerminal_of_isExpired {cutoff : Int} {p : String × Task}
    (h : isExpiredEntry cutoff p = true) : p.2.status.isTerminal = true := by
  simp only [isExpiredEntry, Bool.and_eq_true] at h
  exact h.1

lemma mem_expired_ids_iff (cutoff : Int) {l : List (String × Task)}
    (hnd : (l.map Prod.fst).Nodup) (p : String × Task) (hp : p ∈ l) :
    p.1 ∈ (l.filter (isExpiredEntry cutoff)).map Prod.fst ↔
      isExpiredEntry cutoff p = true := by
  constructor
  · intro h
    rcases List.mem_map.mp h with ⟨y, hy, hyk⟩
    have hyl := List.mem_of_mem_filter hy
    have := List.inj_on_of_nodup_map hnd hyl hp hyk
    subst this
    exact List.of_mem_filter hy
  · intro h
    exact List.mem_map_of_mem _ (List.mem_filter.mpr ⟨hp, h⟩)

/-- With unique ids, the expiry phase of the sweep (deletion by collected
ids) is exactly a filter on the expiry predicate; the sweep's store is the
capacity trim of that. -/
lemma cleanup_tasks_eq (cfg : InferenceConfig) (now : Int) (st : TaskManager)
    (hret : 0 < cfg.task_retention_hours)
    (hnd : (st.tasks.map Prod.fst).Nodup) :
    (cleanup_expired_tasks cfg now st).1.tasks
      = capacityTrim cfg.max_tasks_count
          (st.tasks.filter
            (fun p => !(isExpiredEntry (now - cfg.task_retention_hours * 3600) p))) := by
  simp only [cleanup_expired_tasks]
  rw [if_neg (by omega)]
  dsimp only
  congr 1
  refine List.filter_congr (fun p hp => ?_)
  have := mem_expired_ids_iff (now - cfg.task_retention_hours * 3600) hnd p hp
  by_cases h : isExpiredEntry (now - cfg.task_retention_hours * 3600) p = true
  · simp [h, this.mpr h]
  · have hnm : p.1 ∉ (st.tasks.filter
        (isExpiredEntry (now - cfg.task_retention_hours * 3600))).map Prod.fst :=
      fun hm => h (this.mp hm)
    simp only [Bool.not_eq_true] at h
    simp [h, hnm]

lemma cleanup_count_eq (cfg : InferenceConfig) (now : Int) (st : TaskManager)
    (hret : 0 < cfg.task_retention_hours) :
    (cleanup_expired_tasks cfg now st).2
      = (st.tasks.filter
          (isExpiredEntry (now - cfg.task_retention_hours * 3600))).length := by
  simp only [cleanup_expired_tasks]
  rw [if_neg (by omega)]
  dsimp only
  rw [List.length_map]

lemma nodup_keys_filter (l : List (String × Task)) (q : (String × Task) → Bool)
    (hnd : (l.map Prod.fst).Nodup) : ((l.filter q).map Prod.fst).Nodup :=
  ((List.filter_sublist l).map Prod.fst).nodup hnd


/-!  Claim theorems. -/

/-- C1 (code bug): `run_task` never consults `timeout_seconds` — no
`asyncio.wait_for` or deadline appears anywhere in it — so a work function
running longer than the timeout is not interrupted.  Concretely, with
`timeout_seconds = 1` and the work taking `sleepSeconds = 2` seconds
(started at t=0, finished at t=2), the record ends in `completed` with no
error at all, instead of `failed` with a timeout-indicating error. -/
theorem C1_timeout_not_enforced :
    shortTimeoutCfg.timeout_seconds < sleepSeconds ∧
    (run_task none 0 sleepSeconds stHello helloTask).2.status = .completed ∧
    (run_task none 0 sleepSeconds stHello helloTask).2.error = none ∧
    (run_task none 0 sleepSeconds stHello helloTask).2.result
      = some [("output", "Processed input: hello")] := by
  refine ⟨by decide, rfl, rfl, rfl⟩

/-- C2 counterexample: terminal states are not stable.  `cancel_task` on a
record already in the terminal state `completed` moves its status to
`cancelled`; and `run_task` applied to a record that is already
`cancelled` (a cancel that landed before or during the run) overwrites the
terminal status again, ending the record in `completed` — the cancellation
is silently lost. -/
theorem C2_counterexample :
    completedTask.status = .completed ∧
    Status.completed.isTerminal = true ∧
    cancel_task 5 stWithCompleted "A" = .ok ⟨[("A", cancelledA)], 1, 0, 0⟩ ∧
    cancelledA.status = .cancelled ∧
    cancelledP.status = .cancelled ∧
    (runStart 1 cancelledP).status = .running ∧
    (run_task none 0 2 stCancelled cancelledP).2.status = .completed := by
  refine ⟨rfl, rfl, rfl, rfl, rfl, rfl, rfl⟩

/-- C2 (amended): the status machine is not stable under cancellation from
either side.  `cancel_task` force-transitions ANY existing record —
including one already terminal — to `cancelled`; and `run_task` never
re-reads the status it overwrites, so applied to a record cancelled in the
meantime it resurrects it: the pre-gate write makes any record `running`
(`cancelled → running`), and the run then ends it in `completed` or
`failed` regardless of the prior cancel.  Only in executions free of
cancellation — the interleaving model, which deliberately has no cancel
step — do a record's transitions follow `pending → running →
{completed|failed}`; the sweep never mutates a surviving record. -/
theorem C2_amended_terminal_not_stable :
    (∀ now st task_id t, get_task st task_id = some t →
      cancel_task now st task_id =
        .ok (setTask st task_id { t with status := .cancelled, updated_at := now })) ∧
    (∀ now t, (runStart now t).status = .running) ∧
    (∀ outcome startT endT st t, t.status = .cancelled →
      (run_task outcome startT endT st t).2.status
        = (match outcome with | none => .completed | some _ => .failed)) ∧
    (∀ cfg now st p, p ∈ (cleanup_expired_tasks cfg now st).1.tasks →
      p ∈ st.tasks) ∧
    (∀ capacity s, ExecReachable capacity s → ∀ e ∈ s.procs,
      (e.phase = .notStarted → e.record.status = .pending) ∧
      (e.phase = .waitingSlot ∨ e.phase = .holdingSlot →
        e.record.status = .running) ∧
      (e.phase = .finished →
        e.record.status = .completed ∨ e.record.status = .failed)) := by
  refine ⟨?_, ?_, ?_, ?_, ?_⟩
  · intro now st task_id t h
    unfold cancel_task
    rw [h]
  · intro now t
    rfl
  · intro outcome startT endT st t _h
    cases outcome <;> rfl
  · exact cleanup_subset
  · intro capacity s h e he
    have hrec := (execInv_reachable h).2 e he
    exact ⟨fun h1 => (hrec.1 h1).1,
      fun h1 => h1.elim (fun h1 => (hrec.2.1 h1).1) (fun h1 => (hrec.2.2.1 h1).1),
      fun h1 => (hrec.2.2.2 h1).1⟩

theorem C2_amended_terminal_not_stable_witness :
    cancel_task 5 stWithCompleted "A" =
      .ok (setTask stWithCompleted "A" cancelledA) ∧
    (run_task none 0 2 stCancelled cancelledP).2.status = .completed ∧
    (Task.init "t2" [] 0).status = .pending :=
  ⟨C2_amended_terminal_not_stable.1 5 stWithCompleted "A" completedTask rfl,
    C2_amended_terminal_not_stable.2.2.1 none 0 2 stCancelled cancelledP rfl,
    (C2_amended_terminal_not_stable.2.2.2.2 1 _
      (ExecReachable.step ExecReachable.init (ExecStep.spawn 1 [] "t2" [] 0))
      ⟨Task.init "t2" [] 0, .notStarted⟩ (by simp)).1 rfl⟩

/-- C3 counterexample: `cancel_task` on a `pending` (non-terminal) record
transitions it to `cancelled` but leaves `completed_at` unset — it does not
stamp `completedAt`. -/
theorem C3_counterexample :
    pendingTask.status = .pending ∧
    cancel_task 7 stWithPending "P" = .ok ⟨[("P", cancelledP)], 0, 0, 0⟩ ∧
    cancelledP.status = .cancelled ∧
    cancelledP.completed_at = none := by
  refine ⟨rfl, rfl, rfl, rfl⟩

/-- C3 (amended): `cancel_task` on an id not present in the store signals a
NotFound condition (raises) and no state is produced; on a record that is
not terminal it transitions the record to `cancelled` and stamps
`updated_at` — but it does NOT stamp `completedAt`, which keeps its prior
value. -/
theorem C3_amended_cancel_without_completedAt :
    (∀ now st task_id, get_task st task_id = none →
      cancel_task now st task_id = .error ("Task " ++ task_id ++ " not found")) ∧
    (∀ now st task_id t, get_task st task_id = some t →
      t.status.isTerminal = false →
      cancel_task now st task_id =
        .ok (setTask st task_id { t with status := .cancelled, updated_at := now }) ∧
      get_task (setTask st task_id { t with status := .cancelled, updated_at := now })
          task_id
        = some { t with status := .cancelled, updated_at := now } ∧
      ({ t with status := .cancelled, updated_at := now }).completed_at
        = t.completed_at) := by
  constructor
  · intro now st task_id h
    unfold cancel_task
    rw [h]
  · intro now st task_id t h _hterm
    refine ⟨?_, ?_, rfl⟩
    · unfold cancel_task
      rw [h]
    · rw [get_task_setTask_same, h]
      rfl

theorem C3_amended_cancel_without_completedAt_witness :
    cancel_task 7 stWithPending "unknown-id" =
      .error ("Task " ++ "unknown-id" ++ " not found") ∧
    (cancel_task 7 stWithPending "P" =
        .ok (setTask stWithPending "P" { pendingTask with status := .cancelled, updated_at := 7 }) ∧
      get_task (setTask stWithPending "P" { pendingTask with status := .cancelled, updated_at := 7 }) "P"
        = some { pendingTask with status := .cancelled, updated_at := 7 } ∧
      ({ pendingTask with status := .cancelled, updated_at := 7 }).completed_at
        = pendingTask.completed_at) :=
  ⟨C3_amended_cancel_without_completedAt.1 7 stWithPending "unknown-id" rfl,
    C3_amended_cancel_without_completedAt.2 7 stWithPending "P" pendingTask
      rfl rfl⟩

/-- C4 counterexample: after cancelling a pending task the record is in a
terminal status (`cancelled`) while `completed_at` is still unset, so
"completedAt is set iff the status is terminal" fails. -/
theorem C4_counterexample :
    cancel_task 7 stWithPending "P" = .ok ⟨[("P", cancelledP)], 0, 0, 0⟩ ∧
    cancelledP.status.isTerminal = true ∧
    cancelledP.completed_at.isSome = false := by
  refine ⟨rfl, rfl, rfl⟩

/-- C4 (amended): in the executor model the equivalence "`completed_at` is
set iff the status is terminal" holds in every reachable state, and the
sweep never mutates a surviving record; `cancel_task`, however, only
preserves the direction "`completed_at` set → terminal" (it makes records
terminal without stamping `completed_at`, breaking the converse). -/
theorem C4_amended_completedAt_iff_terminal_except_cancel :
    (∀ capacity s, ExecReachable capacity s → ∀ e ∈ s.procs,
      (e.record.completed_at ≠ none ↔ e.record.status.isTerminal = true)) ∧
    (∀ cfg now st p, p ∈ (cleanup_expired_tasks cfg now st).1.tasks →
      p ∈ st.tasks) ∧
    (∀ now st task_id st', cancel_task now st task_id = .ok st' →
      (∀ q ∈ st.tasks, q.2.completed_at ≠ none → q.2.status.isTerminal = true) →
      ∀ p ∈ st'.tasks, p.2.completed_at ≠ none → p.2.status.isTerminal = true) := by
  refine ⟨?_, ?_, ?_⟩
  · intro capacity s h e he
    have hrec := (execInv_reachable h).2 e he
    cases hph : e.phase
    · have h1 := hrec.1 hph
      rw [h1.2.2, h1.1]
      simp [Status.isTerminal]
    · have h1 := hrec.2.1 hph
      rw [h1.2.2, h1.1]
      simp [Status.isTerminal]
    · have h1 := hrec.2.2.1 hph
      rw [h1.2.2, h1.1]
      simp [Status.isTerminal]
    · have h1 := hrec.2.2.2 hph
      rcases h1.1 with h2 | h2 <;>
        · rw [h2]
          simp [Status.isTerminal, h1.2.2]
  · exact cleanup_subset
  · intro now st task_id st' h hq p hp
    obtain ⟨t, _hget, rfl⟩ := cancel_task_ok h
    simp only [setTask] at hp
    rcases List.mem_map.mp hp with ⟨q, hqmem, rfl⟩
    by_cases hk : q.1 == task_id
    · rw [if_pos hk]
      intro _
      rfl
    · rw [if_neg hk]
      exact hq q hqmem

theorem C4_amended_completedAt_iff_terminal_except_cancel_witness :
    ("A", cancelledA).2.status.isTerminal = true :=
  C4_amended_completedAt_iff_terminal_except_cancel.2.2 5 stWithCompleted "A"
    (setTask stWithCompleted "A" cancelledA) rfl (by decide)
    ("A", cancelledA) (by decide) (by decide)

/-- C5 counterexample: `max_tasks_count = 1`, two terminal records (A
created at 0, B — the most recently created terminal record — at 1) and
one pending record C, none expired.  The claim demands that exactly the
one most-recently-created terminal record (B) plus pending C remain; the
code deletes BOTH terminal records (the removal budget `size −
max_tasks_count = 2` is computed from the full store size but spent only
on terminal records), leaving just C. -/
theorem C5_counterexample :
    (terminalEntries stTrim.tasks).length = 2 ∧
    trimCfg.max_tasks_count = 1 ∧
    trimTaskA.created_at = 0 ∧
    trimTaskB.created_at = 1 ∧
    (∀ p ∈ stTrim.tasks,
      isExpiredEntry (0 - trimCfg.task_retention_hours * 3600) p = false) ∧
    (cleanup_expired_tasks trimCfg 0 stTrim).1.tasks = [("C", trimTaskC)] := by
  refine ⟨rfl, rfl, rfl, rfl, by decide, by decide⟩

/-- C5 (amended): for a store with unique ids, more records than
`max_tasks_count = M` and nothing expired, the trim step of one sweep
never deletes a non-terminal record, deletes only whole existing records,
leaves `#terminal − (size − M)` terminal records (so fewer than M when
non-terminal records occupy part of the budget), and every deleted record
is terminal and created no later than any surviving terminal record (the
oldest terminal records go first).  When the store consists solely of
terminal records, exactly the M most-recently-created remain. -/
theorem C5_amended_capacity_trim (cfg : InferenceConfig) (now : Int)
    (st : TaskManager)
    (hret : 0 < cfg.task_retention_hours)
    (hnd : (st.tasks.map Prod.fst).Nodup)
    (hnoexp : ∀ p ∈ st.tasks,
      isExpiredEntry (now - cfg.task_retention_hours * 3600) p = false)
    (hover : st.tasks.length > cfg.max_tasks_count) :
    (∀ p ∈ st.tasks, p.2.status.isTerminal = false →
      p ∈ (cleanup_expired_tasks cfg now st).1.tasks) ∧
    (∀ p ∈ (cleanup_expired_tasks cfg now st).1.tasks, p ∈ st.tasks) ∧
    (terminalEntries (cleanup_expired_tasks cfg now st).1.tasks).length
      = (terminalEntries st.tasks).length
        - (st.tasks.length - cfg.max_tasks_count) ∧
    (∀ p ∈ st.tasks, p ∉ (cleanup_expired_tasks cfg now st).1.tasks →
      p.2.status.isTerminal = true ∧
      ∀ q ∈ (cleanup_expired_tasks cfg now st).1.tasks,
        q.2.status.isTerminal = true → p.2.created_at ≤ q.2.created_at) ∧
    (terminalEntries st.tasks = st.tasks →
      (cleanup_expired_tasks cfg now st).1.tasks.length = cfg.max_tasks_count) := by
  have hfilter : st.tasks.filter (fun p =>
      !(isExpiredEntry (now - cfg.task_retention_hours * 3600) p)) = st.tasks :=
    List.filter_eq_self.mpr (fun a ha => by simp [hnoexp a ha])
  have heq : (cleanup_expired_tasks cfg now st).1.tasks
      = capacityTrim cfg.max_tasks_count st.tasks := by
    rw [cleanup_tasks_eq cfg now st hret hnd, hfilter]
  have hspec := capacityTrim_spec cfg.max_tasks_count st.tasks hnd hover
  refine ⟨?_, ?_, ?_, ?_, ?_⟩
  · intro p hp hterm
    rw [heq]
    exact hspec.1 p hp hterm
  · intro p hp
    rw [heq] at hp
    exact capacityTrim_subset _ _ p hp
  · rw [heq]
    exact hspec.2.1
  · intro p hp hout
    rw [heq] at hout
    obtain ⟨h1, h2⟩ := hspec.2.2 p hp hout
    refine ⟨h1, fun q hq => ?_⟩
    rw [heq] at hq
    exact h2 q hq
  · intro hallterm
    rw [heq]
    have hresterm : terminalEntries (capacityTrim cfg.max_tasks_count st.tasks)
        = capacityTrim cfg.max_tasks_count st.tasks :=
      List.filter_eq_self.mpr (fun a ha =>
        List.filter_eq_self.mp hallterm a (capacityTrim_subset _ _ a ha))
    have hlen := hspec.2.1
    rw [hresterm] at hlen
    rw [hlen, congrArg List.length hallterm]
    omega

theorem C5_amended_capacity_trim_witness :
    ("C", trimTaskC) ∈ (cleanup_expired_tasks trimCfg 0 stTrim).1.tasks :=
  (C5_amended_capacity_trim trimCfg 0 stTrim (by decide) (by decide)
      (by decide) (by decide)).1 ("C", trimTaskC) (by decide) (by decide)

/-- C6 counterexample: a sweep with retention one hour and
`max_tasks_count = 1` on a store of two fresh (non-expired) terminal
records deletes no expired record and returns 0, yet it still removes the
older record via the capacity trim — so the sweep does NOT leave "every
other record" (records that are not terminal-and-expired) in place. -/
theorem C6_counterexample :
    0 < (⟨5, 60, 1, 1⟩ : InferenceConfig).task_retention_hours ∧
    (∀ p ∈ stSweep.tasks,
      isExpiredEntry (3600 - (1 : Int) * 3600) p = false) ∧
    (cleanup_expired_tasks ⟨5, 60, 1, 1⟩ 3600 stSweep).2 = 0 ∧
    ("E", oldDone) ∈ stSweep.tasks ∧
    ("E", oldDone) ∉ (cleanup_expired_tasks ⟨5, 60, 1, 1⟩ 3600 stSweep).1.tasks := by
  refine ⟨by decide, by decide, by decide, by decide, by decide⟩

/-- C6 (amended): a sweep with `retention_hours ≤ 0` is a complete no-op
returning 0 (it also skips the capacity trim).  With `retention_hours >
0`, the returned count is exactly the number of terminal records whose
`completed_at` is before `now − retention`; those records are all deleted;
the resulting store is precisely the capacity trim of the non-expired
records, so beyond the expired ones only terminal records can disappear
(when the store still exceeds `max_tasks_count`), and every surviving
record is an unchanged record of the original store. -/
theorem C6_amended_sweep_spec :
    (∀ cfg now st, cfg.task_retention_hours ≤ 0 →
      cleanup_expired_tasks cfg now st = (st, 0)) ∧
    (∀ cfg now st, 0 < cfg.task_retention_hours →
      (cleanup_expired_tasks cfg now st).2
        = (st.tasks.filter
            (isExpiredEntry (now - cfg.task_retention_hours * 3600))).length) ∧
    (∀ cfg now st, 0 < cfg.task_retention_hours →
      (st.tasks.map Prod.fst).Nodup →
      (cleanup_expired_tasks cfg now st).1.tasks
        = capacityTrim cfg.max_tasks_count
            (st.tasks.filter (fun p =>
              !(isExpiredEntry (now - cfg.task_retention_hours * 3600) p)))) ∧
    (∀ cfg now st p, 0 < cfg.task_retention_hours → p ∈ st.tasks →
      isExpiredEntry (now - cfg.task_retention_hours * 3600) p = true →
      p ∉ (cleanup_expired_tasks cfg now st).1.tasks) ∧
    (∀ cfg now st p, p ∈ (cleanup_expired_tasks cfg now st).1.tasks →
      p ∈ st.tasks) ∧
    (∀ cfg now st p, (st.tasks.map Prod.fst).Nodup → p ∈ st.tasks →
      p ∉ (cleanup_expired_tasks cfg now st).1.tasks →
      p.2.status.isTerminal = true) := by
  refine ⟨?_, ?_, ?_, ?_, ?_, ?_⟩
  · intro cfg now st h
    unfold cleanup_expired_tasks
    rw [if_pos h]
  · intro cfg now st h
    exact cleanup_count_eq cfg now st h
  · intro cfg now st h hnd
    exact cleanup_tasks_eq cfg now st h hnd
  · intro cfg now st p h hp hexp hmem
    simp only [cleanup_expired_tasks] at hmem
    rw [if_neg (by omega)] at hmem
    dsimp only at hmem
    have hrem := capacityTrim_subset _ _ p hmem
    have hpred := List.of_mem_filter hrem
    simp only [Bool.not_eq_true'] at hpred
    have hin : p.1 ∈ (st.tasks.filter
        (isExpiredEntry (now - cfg.task_retention_hours * 3600))).map Prod.fst :=
      List.mem_map_of_mem _ (List.mem_filter.mpr ⟨hp, hexp⟩)
    simp [hin] at hpred
  · intro cfg now st p hp
    exact cleanup_subset cfg now st p hp
  · intro cfg now st p hnd hp hout
    by_cases hr : cfg.task_retention_hours ≤ 0
    · exfalso
      apply hout
      unfold cleanup_expired_tasks
      rw [if_pos hr]
      exact hp
    · rw [cleanup_tasks_eq cfg now st (by omega) hnd] at hout
      by_cases hexp : isExpiredEntry (now - cfg.task_retention_hours * 3600) p = true
      · exact isTerminal_of_isExpired hexp
      · have hp' : p ∈ st.tasks.filter (fun p =>
            !(isExpiredEntry (now - cfg.task_retention_hours * 3600) p)) :=
          List.mem_filter.mpr ⟨hp, by simp [hexp]⟩
        exact capacityTrim_removed_terminal cfg.max_tasks_count _
          (nodup_keys_filter _ _ hnd) p hp' hout

theorem C6_amended_sweep_spec_witness :
    cleanup_expired_tasks ⟨5, 60, 0, 1000⟩ 0 stSweep = (stSweep, 0) ∧
    (cleanup_expired_tasks sweepCfg 103599 stSweep).2
      = (stSweep.tasks.filter
          (isExpiredEntry (103599 - sweepCfg.task_retention_hours * 3600))).length ∧
    ("E", oldDone) ∉ (cleanup_expired_tasks sweepCfg 103599 stSweep).1.tasks ∧
    ("F", newDone) ∈ (cleanup_expired_tasks sweepCfg 103599 stSweep).1.tasks :=
  ⟨C6_amended_sweep_spec.1 ⟨5, 60, 0, 1000⟩ 0 stSweep (by decide),
    C6_amended_sweep_spec.2.1 sweepCfg 103599 stSweep (by decide),
    C6_amended_sweep_spec.2.2.2.1 sweepCfg 103599 stSweep ("E", oldDone)
      (by decide) (by decide) (by decide),
    by decide⟩

/-- C8: for every reachable state of the executor model, under any number
of spawned tasks and any interleaving, at most `max_concurrent_tasks`
invocations of `run_task` are simultaneously inside the admission-gate
(`async with self.semaphore`) window. -/
theorem C8_admission_gate_capacity (capacity : Nat) (s : ExecState)
    (h : ExecReachable capacity s) : holdingCount s ≤ capacity := by
  have hc := (execInv_reachable h).1
  omega

theorem C8_admission_gate_capacity_witness :
    holdingCount ⟨0, [⟨runStart 1 (Task.init "t1" [] 0), .holdingSlot⟩]⟩ ≤ 1 :=
  C8_admission_gate_capacity 1 _
    (ExecReachable.step
      (ExecReachable.step
        (ExecReachable.step ExecReachable.init
          (ExecStep.spawn 1 [] "t1" [] 0))
        (ExecStep.start 1 [] [] ⟨Task.init "t1" [] 0, .notStarted⟩ 1 rfl))
      (ExecStep.acquire 1 [] []
        ⟨runStart 1 (Task.init "t1" [] 0), .waitingSlot⟩ rfl Nat.one_pos))

/-- C7: `create_task` always returns, synchronously, a freshly built record
in status `pending` with the assigned id (and no `started_at` yet); the
spawn step of the executor model is enabled in every state and leaves the
semaphore untouched (submission never waits on the admission gate); and any
invocation that is waiting for or holding an admission-gate slot has
already been marked `running` with `started_at` stamped — i.e. the status
write happens before the slot is requested. -/
theorem C7_submit_pending_gate_after_running :
    (∀ cfg now new_id payload st,
      (create_task cfg now new_id payload st).2.status = .pending ∧
      (create_task cfg now new_id payload st).2.task_id = new_id ∧
      (create_task cfg now new_id payload st).2.started_at = none) ∧
    (∀ sem l new_id payload now,
      ExecStep ⟨sem, l⟩ ⟨sem, l ++ [⟨Task.init new_id payload now, .notStarted⟩]⟩) ∧
    (∀ capacity s, ExecReachable capacity s → ∀ e ∈ s.procs,
      e.phase = .waitingSlot ∨ e.phase = .holdingSlot →
      e.record.status = .running ∧ e.record.started_at ≠ none) := by
  refine ⟨?_, ?_, ?_⟩
  · intro cfg now new_id payload st
    exact ⟨rfl, rfl, rfl⟩
  · intro sem l new_id payload now
    exact ExecStep.spawn sem l new_id payload now
  · intro capacity s h e he hph
    have hrec := (execInv_reachable h).2 e he
    rcases hph with h1 | h1
    · exact ⟨(hrec.2.1 h1).1, (hrec.2.1 h1).2.1⟩
    · exact ⟨(hrec.2.2.1 h1).1, (hrec.2.2.1 h1).2.1⟩

theorem C7_submit_pending_gate_after_running_witness :
    ((create_task ⟨5, 60, 24, 1000⟩ 0 "w" [] ⟨[], 0, 0, 0⟩).2.status = .pending ∧
      (create_task ⟨5, 60, 24, 1000⟩ 0 "w" [] ⟨[], 0, 0, 0⟩).2.task_id = "w" ∧
      (create_task ⟨5, 60, 24, 1000⟩ 0 "w" [] ⟨[], 0, 0, 0⟩).2.started_at = none) ∧
    ((runStart 1 (Task.init "t1" [] 0)).status = .running ∧
      (runStart 1 (Task.init "t1" [] 0)).started_at ≠ none) :=
  ⟨C7_submit_pending_gate_after_running.1 ⟨5, 60, 24, 1000⟩ 0 "w" [] ⟨[], 0, 0, 0⟩,
    C7_submit_pending_gate_after_running.2.2 1 _
      (ExecReachable.step
        (ExecReachable.step ExecReachable.init (ExecStep.spawn 1 [] "t1" [] 0))
        (ExecStep.start 1 [] [] ⟨Task.init "t1" [] 0, .notStarted⟩ 1 rfl))
      ⟨runStart 1 (Task.init "t1" [] 0), .waitingSlot⟩ (by simp) (Or.inl rfl)⟩

/-- C9: the `completed_tasks` / `failed_tasks` numbers reported by
`get_metrics` come from lifetime counters: a sweep leaves them unchanged
(whatever it deletes), every operation only ever increases them, a
successful cancel does not touch them — and after a sweep that empties the
store they can exceed `task_count` (3 completed reported with 0 records
stored). -/
theorem C9_metrics_counters_cumulative :
    (∀ cfg tSweep tM st,
      (get_metrics tM (cleanup_expired_tasks cfg tSweep st).1).completed_tasks
        = (get_metrics tM st).completed_tasks ∧
      (get_metrics tM (cleanup_expired_tasks cfg tSweep st).1).failed_tasks
        = (get_metrics tM st).failed_tasks) ∧
    (∀ cfg now new_id payload st,
      st.completed_count ≤ (create_task cfg now new_id payload st).1.completed_count ∧
      st.failed_count ≤ (create_task cfg now new_id payload st).1.failed_count) ∧
    (∀ outcome startT endT st t,
      st.completed_count ≤ (run_task outcome startT endT st t).1.completed_count ∧
      st.failed_count ≤ (run_task outcome startT endT st t).1.failed_count) ∧
    (∀ now st task_id st', cancel_task now st task_id = .ok st' →
      st'.completed_count = st.completed_count ∧
      st'.failed_count = st.failed_count) ∧
    ((get_metrics 9000 (cleanup_expired_tasks ⟨5, 60, 1, 1000⟩ 9000
        ⟨[("A", completedTask)], 3, 1, 0⟩).1).completed_tasks = 3 ∧
      (get_metrics 9000 (cleanup_expired_tasks ⟨5, 60, 1, 1000⟩ 9000
        ⟨[("A", completedTask)], 3, 1, 0⟩).1).task_count = 0) := by
  refine ⟨?_, ?_, ?_, ?_, by decide, by decide⟩
  · intro cfg tSweep tM st
    have h := cleanup_counts cfg tSweep st
    exact ⟨h.1, h.2⟩
  · intro cfg now new_id payload st
    have h := cleanup_counts cfg now st
    simp only [create_task]
    rw [h.1, h.2]
    exact ⟨le_refl _, le_refl _⟩
  · intro outcome startT endT st t
    cases outcome <;> simp [run_task, bumpCounter, setTask]
  · intro now st task_id st' h
    obtain ⟨t, _hget, rfl⟩ := cancel_task_ok h
    exact ⟨rfl, rfl⟩

theorem C9_metrics_counters_cumulative_witness :
    (setTask stWithPending "P" cancelledP).completed_count
        = stWithPending.completed_count ∧
      (setTask stWithPending "P" cancelledP).failed_count
        = stWithPending.failed_count :=
  C9_metrics_counters_cumulative.2.2.2.1 7 stWithPending "P"
    (setTask stWithPending "P" cancelledP) rfl

/-- C10 counterexample: the empty string is a type filter different from
`"inference"`, yet `list_tasks` with it does NOT exclude the task whose
type defaulted to `"inference"` — Python's `if task_type:` treats `""` as
"no filter". -/
theorem C10_counterexample :
    typelessTask.type = "inference" ∧
    ("" : String) ≠ "inference" ∧
    list_tasks stTypeless none (some "") = [typelessTask] := by
  refine ⟨rfl, by decide, rfl⟩

/-- C10 (amended): a payload without a `type` key yields type
`"inference"`; `list_tasks` with type filter `"inference"` returns such a
task and any other NON-EMPTY type filter excludes it (an empty-string type
filter, like an empty-string or absent status filter, applies no filtering
at all); the status filter compares case-insensitively. -/
theorem C10_amended_type_default_and_filters :
    (∀ task_id payload now, payload.find? (fun kv => kv.1 == "type") = none →
      (Task.init task_id payload now).type = "inference") ∧
    (∀ st t, t ∈ get_all_tasks st → t.type = "inference" →
      t ∈ list_tasks st none (some "inference")) ∧
    (∀ st t f, t ∈ get_all_tasks st → t.type = "inference" →
      f ≠ "inference" → f ≠ "" → t ∉ list_tasks st none (some f)) ∧
    (∀ st s₁ s₂ tf, s₁.toLower = s₂.toLower → (s₁ = "" ↔ s₂ = "") →
      list_tasks st (some s₁) tf = list_tasks st (some s₂) tf) ∧
    (∀ st tf, list_tasks st (some "") tf = list_tasks st none tf) := by
  refine ⟨?_, ?_, ?_, ?_, ?_⟩
  · intro task_id payload now h
    simp [Task.init, Payload.getD, h]
  · intro st t ht htype
    simp [list_tasks, truthyStr, List.mem_filter, htype]
    exact ht
  · intro st t f ht htype hf hne hmem
    simp [list_tasks, truthyStr, hne, List.mem_filter, htype] at hmem
    exact hf hmem.2.symm
  · intro st s₁ s₂ tf hlow hemp
    by_cases h1 : s₁ = ""
    · have h2 : s₂ = "" := hemp.mp h1
      subst h1
      subst h2
      rfl
    · have h2 : s₂ ≠ "" := fun h => h1 (hemp.mpr h)
      have e1 : truthyStr (some s₁) = true := by simp [truthyStr, h1]
      have e2 : truthyStr (some s₂) = true := by simp [truthyStr, h2]
      simp [list_tasks, e1, e2, Option.getD, hlow]
  · intro st tf
    rfl

theorem C10_amended_type_default_and_filters_witness :
    (Task.init "H" [("input", "hello")] 3).type = "inference" ∧
    typelessTask ∈ list_tasks stTypeless none (some "inference") ∧
    typelessTask ∉ list_tasks stTypeless none (some "training") ∧
    list_tasks stTypeless (some "completed") none
      = list_tasks stTypeless (some "completed") none :=
  ⟨C10_amended_type_default_and_filters.1 "H" [("input", "hello")] 3 rfl,
    C10_amended_type_default_and_filters.2.1 stTypeless typelessTask
      (by decide) rfl,
    C10_amended_type_default_and_filters.2.2.1 stTypeless typelessTask
      "training" (by decide) rfl (by decide) (by decide),
    C10_amended_type_default_and_filters.2.2.2.1 stTypeless "completed"
      "completed" none rfl Iff.rfl⟩

end TaskAgent
